import Mathlib

/-
Shallow embedding of the EquilibriumNet equilibrium-propagation model from
src/src/equilibrium.py.  Tensors are modelled as shape metadata together with
total entry functions into the rationals; the torch primitives used by the
source (clamp, matmul, transpose, diag, row slicing views, mean, padding,
concatenation) become the corresponding definitions below.  Python assert
failures (and the runtime error raised by torch.cat on an empty list) are
modelled with Except.
-/

/-- Hard sigmoid activation, from rho in equilibrium.py:
torch.clamp(v, 0, 1), elementwise; here on one scalar. -/
def rho (v : ℚ) : ℚ := min (max v 0) 1

/-- Derivative of the hard sigmoid, from rhoprime in equilibrium.py:
(torch.gt(v, 0) and torch.lt(v, 1)) cast to a float tensor; here on one
scalar. -/
def rhoprime (v : ℚ) : ℚ := if 0 < v ∧ v < 1 then 1 else 0

/-- A 1-D tensor: a length and a total entry function. -/
structure Tensor1 where
  len : ℕ
  entry : ℕ → ℚ

/-- A 2-D tensor: row and column counts and a total entry function. -/
structure Tensor2 where
  rows : ℕ
  cols : ℕ
  entry : ℕ → ℕ → ℚ

/-- The empty tensor, used as the default value when indexing tensor lists. -/
def zeroT2 : Tensor2 := ⟨0, 0, fun _ _ => 0⟩

/-- The empty 1-D tensor. -/
def zeroT1 : Tensor1 := ⟨0, fun _ => 0⟩

/-- torch.t: matrix transpose. -/
def Tensor2.t (A : Tensor2) : Tensor2 := ⟨A.cols, A.rows, fun i j => A.entry j i⟩

/-- torch.mm / torch.matmul on 2-D tensors; the contraction runs over the
columns of the left factor (torch requires A.cols = B.rows). -/
def Tensor2.mm (A B : Tensor2) : Tensor2 :=
  ⟨A.rows, B.cols, fun i j => ∑ k ∈ Finset.range A.cols, A.entry i k * B.entry k j⟩

/-- torch .diag of a square matrix: the diagonal, as an entry function. -/
def Tensor2.diag (A : Tensor2) (i : ℕ) : ℚ := A.entry i i

/-- torch.matmul of a 1-D tensor with a 2-D tensor; the contraction runs over
the length of the vector (torch requires v.len = A.rows). -/
def vecmm (v : Tensor1) (A : Tensor2) : Tensor1 :=
  ⟨A.cols, fun j => ∑ i ∈ Finset.range v.len, v.entry i * A.entry i j⟩

/-- Row-slice view A[b:e] of a 2-D tensor along axis 0. -/
def Tensor2.sliceRows (A : Tensor2) (b e : ℕ) : Tensor2 :=
  ⟨e - b, A.cols, fun i j => A.entry (b + i) j⟩

/-- torch.mean(A, dim=1): mean across the column (minibatch) dimension. -/
def Tensor2.meanDim1 (A : Tensor2) : Tensor1 :=
  ⟨A.rows, fun i => (∑ j ∈ Finset.range A.cols, A.entry i j) / (A.cols : ℚ)⟩

/-- Elementwise division of a tensor by a natural number scalar. -/
def Tensor2.divNat (A : Tensor2) (n : ℕ) : Tensor2 :=
  ⟨A.rows, A.cols, fun i j => A.entry i j / (n : ℚ)⟩

/-- Elementwise rho over a 2-D tensor. -/
def rhoM (A : Tensor2) : Tensor2 := ⟨A.rows, A.cols, fun i j => rho (A.entry i j)⟩

/-- Elementwise rhoprime over a 2-D tensor. -/
def rhoprimeM (A : Tensor2) : Tensor2 :=
  ⟨A.rows, A.cols, fun i j => rhoprime (A.entry i j)⟩

/-- Vertical (dim 0) concatenation of two 2-D tensors. -/
def Tensor2.vcat2 (A B : Tensor2) : Tensor2 :=
  ⟨A.rows + B.rows, A.cols,
    fun i j => if i < A.rows then A.entry i j else B.entry (i - A.rows) j⟩

/-- torch.cat along dim 0; torch.cat raises a runtime error on an empty list,
modelled by returning none. -/
def catList (l : List Tensor2) : Option Tensor2 :=
  match l with
  | [] => none
  | t :: ts => some (ts.foldl Tensor2.vcat2 t)

/-- torch.nn.functional.pad of the last dimension by (0, p); a negative p
crops columns, as in torch. -/
def padLastDim (A : Tensor2) (p : ℤ) : Tensor2 :=
  ⟨A.rows, ((A.cols : ℤ) + p).toNat, fun i j => if j < A.cols then A.entry i j else 0⟩

/-- Failures surfaced by the model: Python assert failures are ShapeMismatch,
torch runtime failures (torch.cat on an empty list) are RuntimeFailure. -/
inductive EqError where
  | ShapeMismatch : EqError
  | RuntimeFailure : EqError
deriving DecidableEq

/-- The optional initial_state keyword argument of set_batch_size: absent,
a 1-D tensor, or a 2-D tensor. -/
inductive InitState where
  | noState : InitState
  | oneD : Tensor1 → InitState
  | twoD : Tensor2 → InitState

/-- The EquilibriumNet data, mirroring the attributes set by
EquilibriumNet.__init__: shape, partial_sums, minibatch_size,
state_particles, weights, input_weights, biases.  The per-layer views
(layer_state_particles, layer_biases) are non-owning slices and are modelled
as derived functions below. -/
structure EquilibriumNet where
  shape : List ℕ
  partial_sums : List ℕ
  minibatch_size : ℕ
  state_particles : Tensor2
  weights : List Tensor2
  input_weights : List (ℕ → ℚ)
  biases : Tensor1

/-- The per-layer state views: state_particles[b:e] for consecutive
partial_sums entries (a list of row-slice views of the flat buffer). -/
def EquilibriumNet.layer_state_particles (net : EquilibriumNet) : List Tensor2 :=
  List.zipWith (fun b e => net.state_particles.sliceRows b e)
    net.partial_sums.dropLast net.partial_sums.tail

/-- EquilibriumNet.set_batch_size: assigns minibatch_size, then initializes
state_particles from the optional initial_state; the assert failures come
after the corresponding assignments, so the partially mutated net is returned
alongside the error (Python leaves the object in that state when the assert
raises). -/
def EquilibriumNet.set_batch_size (net : EquilibriumNet) (minibatch_size : ℕ)
    (initial_state : InitState) : EquilibriumNet × Option EqError :=
  let net1 := { net with minibatch_size := minibatch_size }
  match initial_state with
  | .noState =>
      ({ net1 with state_particles :=
          ⟨net1.partial_sums.getLastD 0, minibatch_size, fun _ _ => 0⟩ }, none)
  | .oneD v =>
      let net2 := { net1 with state_particles :=
          ⟨v.len, minibatch_size, fun i _ => v.entry i⟩ }
      if v.len = net2.partial_sums.getLastD 0 then (net2, none)
      else (net2, some .ShapeMismatch)
  | .twoD s =>
      let net2 := { net1 with state_particles := s }
      if s.rows = net2.partial_sums.getLastD 0 ∧ s.cols = minibatch_size
      then (net2, none) else (net2, some .ShapeMismatch)

/-- The input_weights cache built in __init__: for every weight matrix, its
rows (one 1-D tensor per output neuron), flattened across all layers into one
list. -/
def inputWeights (ws : List Tensor2) : List (ℕ → ℚ) :=
  (ws.map (fun w => (List.range w.rows).map (fun p => fun i => w.entry p i))).flatten

/-- The weight validation performed by __init__ on externally supplied
weights: the count equals len(shape) - 1 and weight k has shape
(shape[k+1], shape[k]). -/
def goodWeights (shape : List ℕ) (ws : List Tensor2) : Prop :=
  ws.length = shape.length - 1 ∧
  ∀ k, k < ws.length →
    (ws.getD k zeroT2).rows = shape.getD (k + 1) 0 ∧
    (ws.getD k zeroT2).cols = shape.getD k 0

instance goodWeightsDec (shape : List ℕ) (ws : List Tensor2) :
    Decidable (goodWeights shape ws) := by
  unfold goodWeights
  exact inferInstance

/-- The weights branch of __init__: random initialization when absent
(randW k is the oracle for the entries of torch.randn for weight k), the
assert-based validation otherwise. -/
def checkWeights (shape : List ℕ) (weightsArg : Option (List Tensor2))
    (randW : ℕ → ℕ → ℕ → ℚ) : Except EqError (List Tensor2) :=
  match weightsArg with
  | none => .ok ((List.range (shape.length - 1)).map
      (fun k => ⟨shape.getD (k + 1) 0, shape.getD k 0, randW k⟩))
  | some ws => if goodWeights shape ws then .ok ws else .error .ShapeMismatch

/-- The biases branch of __init__: random initialization when absent (randB
is the oracle for torch.randn), otherwise the assert that the length equals
partial_sums[-1]. -/
def checkBiases (nTot : ℕ) (biasesArg : Option Tensor1) (randB : ℕ → ℚ) :
    Except EqError Tensor1 :=
  match biasesArg with
  | none => .ok ⟨nTot, randB⟩
  | some bs => if bs.len = nTot then .ok bs else .error .ShapeMismatch

/-- EquilibriumNet.__init__: builds shape and partial_sums, delegates state
setup to set_batch_size, then validates or randomly initializes the weights,
builds the input_weights cache, and validates or randomly initializes the
biases.  Assert failures abort construction with the corresponding error. -/
def initNet (input_size : ℕ) (layer_sizes : List ℕ) (output_size : ℕ)
    (minibatch_size : ℕ) (weightsArg : Option (List Tensor2))
    (biasesArg : Option Tensor1) (initial_state : InitState)
    (randW : ℕ → ℕ → ℕ → ℚ) (randB : ℕ → ℚ) : Except EqError EquilibriumNet :=
  let shape : List ℕ := input_size :: (layer_sizes ++ [output_size])
  let psums : List ℕ := List.scanl (· + ·) 0 shape.tail
  let pre : EquilibriumNet := ⟨shape, psums, minibatch_size, zeroT2, [], [], zeroT1⟩
  let sb := pre.set_batch_size minibatch_size initial_state
  match sb.2 with
  | some e => .error e
  | none =>
    match checkWeights shape weightsArg randW with
    | .error e => .error e
    | .ok ws =>
      match checkBiases (psums.getLastD 0) biasesArg randB with
      | .error e => .error e
      | .ok bs =>
          .ok { sb.1 with
                weights := ws
                input_weights := inputWeights ws
                biases := bs }

/-- EquilibriumNet.energy at one batch element b, following the source
line by line: squared_norm, bias_sum, next_weights, tensor_product,
input_sums, combined as input_sums + squared_norm - bias_sum -
tensor_product. -/
def EquilibriumNet.energyAt (net : EquilibriumNet) (x : Tensor2) (b : ℕ) : ℚ :=
  let squared_norm : ℚ :=
    (∑ i ∈ Finset.range net.state_particles.rows, net.state_particles.entry i b ^ 2) / 2
  let bias_sum : ℚ := (vecmm net.biases (rhoM net.state_particles)).entry b
  let next_weights : List Tensor2 :=
    List.zipWith (fun W s => Tensor2.mm W.t (rhoM s))
      net.weights.tail net.layer_state_particles.tail
  let tensor_product : ℚ :=
    (List.zipWith (fun pr s => (Tensor2.mm pr.t (rhoM s)).diag b)
      next_weights net.layer_state_particles.dropLast).sum
  let input_sums : ℚ :=
    -((Tensor2.mm x (Tensor2.mm (net.weights.headD zeroT2).t
        (rhoM (net.layer_state_particles.headD zeroT2)))).diag b)
  input_sums + squared_norm - bias_sum - tensor_product

/-- EquilibriumNet.energy: asserts x.shape == (minibatch_size, shape[0]) and
returns one scalar per batch element. -/
def EquilibriumNet.energy (net : EquilibriumNet) (x : Tensor2) :
    Except EqError (List ℚ) :=
  if x.rows = net.minibatch_size ∧ x.cols = net.shape.headD 0 then
    .ok ((List.range net.minibatch_size).map (net.energyAt x))
  else .error .ShapeMismatch

/-- EquilibriumNet.energy_grad_state: asserts the input shape, computes
rhoprime of the state, the per-layer products, their concatenation and the
padded input product, prints debug output, and falls off the end of the
function: the Python function has no return statement, so on success it
returns None.  torch.cat raises on an empty list (no hidden layers). -/
def EquilibriumNet.energy_grad_state (net : EquilibriumNet) (x : Tensor2) :
    Except EqError (Option Tensor2) :=
  if x.rows = net.minibatch_size ∧ x.cols = net.shape.headD 0 then
    let dact := rhoprimeM net.state_particles
    let res := List.zipWith Tensor2.mm net.weights.tail
      net.layer_state_particles.dropLast
    match catList res with
    | none => .error .RuntimeFailure
    | some resCat =>
        let input_product := padLastDim
          ((net.weights.headD zeroT2).mm x.t)
          ((net.partial_sums.getLastD 0 : ℤ) - (net.shape.headD 0 : ℤ))
        let _ := dact
        let _ := resCat
        let _ := input_product
        .ok none
  else .error .ShapeMismatch

/-- EquilibriumNet.energy_grad_weight: asserts state.shape ==
state_particles.shape, then computes the bias gradient as the row mean of the
activated state, prepends t(x) to the per-layer slices of the activated
state, and forms one weight gradient per consecutive pair as
mm(next, t(prev)) / minibatch_size. -/
def EquilibriumNet.energy_grad_weight (net : EquilibriumNet) (state : Tensor2)
    (x : Tensor2) : Except EqError (List Tensor2 × Tensor1) :=
  if state.rows = net.state_particles.rows ∧ state.cols = net.state_particles.cols then
    let activated_state := rhoM state
    let bias_grad := activated_state.meanDim1
    let layer_states : List Tensor2 :=
      x.t :: List.zipWith (fun b e => activated_state.sliceRows b e)
        net.partial_sums.dropLast net.partial_sums.tail
    let weight_grad : List Tensor2 :=
      List.zipWith (fun prev next => (Tensor2.mm next prev.t).divNat net.minibatch_size)
        layer_states.dropLast layer_states.tail
    .ok (weight_grad, bias_grad)
  else .error .ShapeMismatch

/-- shape[k] of a network, 0 out of range. -/
def sh (net : EquilibriumNet) (k : ℕ) : ℕ := net.shape.getD k 0

/-- partial_sums[k] of a network, 0 out of range. -/
def ps (net : EquilibriumNet) (k : ℕ) : ℕ := net.partial_sums.getD k 0

/-- partial_sums[-1]: the total non-input neuron count. -/
def nTotal (net : EquilibriumNet) : ℕ := net.partial_sums.getLastD 0

/-- Spec-side description: the activated state of non-input layer k (component
i, batch element b), located in the flat state buffer at offset
partial_sums[k] + i. -/
def actState (net : EquilibriumNet) (k i b : ℕ) : ℚ :=
  rho (net.state_particles.entry (ps net k + i) b)

/-- Spec-side description of the input-coupling energy term: the negated dot
product, per batch element, of x with the activated state of the first layer
projected through the first weight matrix. -/
def inputCouplingSpec (net : EquilibriumNet) (x : Tensor2) (b : ℕ) : ℚ :=
  -(∑ i ∈ Finset.range (sh net 0), x.entry b i *
      (∑ j ∈ Finset.range (sh net 1),
        (net.weights.getD 0 zeroT2).entry j i * actState net 0 j b))

/-- Spec-side description of the squared-norm energy term: half the sum of
squares of all state particles, per batch element. -/
def squaredNormSpec (net : EquilibriumNet) (b : ℕ) : ℚ :=
  (∑ i ∈ Finset.range (nTotal net), net.state_particles.entry i b ^ 2) / 2

/-- Spec-side description of the bias energy term: the dot product of the
bias vector with the activated state, per batch element. -/
def biasTermSpec (net : EquilibriumNet) (b : ℕ) : ℚ :=
  ∑ i ∈ Finset.range (nTotal net),
    net.biases.entry i * rho (net.state_particles.entry i b)

/-- Spec-side description of the inter-layer coupling term: for every layer
after the first, the dot product, per batch element, of that layer's
activated state projected backward through its weight matrix with the
activated state of the preceding layer. -/
def interLayerSpec (net : EquilibriumNet) (b : ℕ) : ℚ :=
  ∑ k ∈ Finset.range (net.shape.length - 2),
    ∑ j ∈ Finset.range (sh net (k + 1)),
      (∑ i ∈ Finset.range (sh net (k + 2)),
        (net.weights.getD (k + 1) zeroT2).entry i j * actState net (k + 1) i b)
      * actState net k j b

/-- Spec-side description of the energy: input-coupling + squared-norm -
bias - inter-layer coupling, per batch element. -/
def energySpecAt (net : EquilibriumNet) (x : Tensor2) (b : ℕ) : ℚ :=
  inputCouplingSpec net x b + squaredNormSpec net b
    - biasTermSpec net b - interLayerSpec net b

/-- Spec-side description of the bias gradient: the mean across the minibatch
dimension of the activated state, per bias component. -/
def biasGradSpec (net : EquilibriumNet) (state : Tensor2) (i : ℕ) : ℚ :=
  (∑ b ∈ Finset.range net.minibatch_size, rho (state.entry i b)) /
    (net.minibatch_size : ℚ)

/-- Spec-side description of the activated state of the upstream layer of
inter-layer connection k: x itself for the virtual input layer, the activated
state slice otherwise. -/
def actUpstream (net : EquilibriumNet) (state x : Tensor2) (k j b : ℕ) : ℚ :=
  match k with
  | 0 => x.entry b j
  | k' + 1 => rho (state.entry (ps net k' + j) b)

/-- Spec-side description of weight gradient k: the matrix product of the
activated state of the downstream layer with the transpose of the activated
state of the upstream layer, divided by the minibatch size. -/
def weightGradSpec (net : EquilibriumNet) (state x : Tensor2) (k : ℕ) : Tensor2 :=
  ⟨sh net (k + 1), sh net k,
    fun i j => (∑ b ∈ Finset.range net.minibatch_size,
      rho (state.entry (ps net k + i) b) * actUpstream net state x k j b) /
      (net.minibatch_size : ℚ)⟩

/-- Well-formedness of a constructed network: shape has at least two layers,
partial_sums is the prefix-sum layout over shape[1:], the weight matrices
have shapes (shape[k+1], shape[k]), and the state and bias buffers have the
sizes implied by partial_sums and minibatch_size. -/
def WF (net : EquilibriumNet) : Prop :=
  2 ≤ net.shape.length ∧
  net.partial_sums = List.scanl (· + ·) 0 net.shape.tail ∧
  net.weights.map Tensor2.rows = net.shape.tail ∧
  net.weights.map Tensor2.cols = net.shape.dropLast ∧
  net.state_particles.rows = net.partial_sums.getLastD 0 ∧
  net.state_particles.cols = net.minibatch_size ∧
  net.biases.len = net.partial_sums.getLastD 0

instance WFDec (net : EquilibriumNet) : Decidable (WF net) := by
  unfold WF
  exact inferInstance

/-- A placeholder network (used only as the fallback of matches that are
proved not to occur). -/
def dummyNet : EquilibriumNet := ⟨[], [], 0, zeroT2, [], [], zeroT1⟩

/-- Random-weight oracle for the concrete example network. -/
def rwC : ℕ → ℕ → ℕ → ℚ := fun k i j => ((k + i + j : ℕ) : ℚ) + 1

/-- Random-bias oracle for the concrete example network. -/
def rbC : ℕ → ℚ := fun i => ((i : ℕ) : ℚ) - 3

/-- A concrete example network of shape [2, 3, 1] with minibatch size 2,
built by the constructor. -/
def netC : EquilibriumNet :=
  match initNet 2 [3] 1 2 none none .noState rwC rbC with
  | .ok n => n
  | .error _ => dummyNet

/-- A concrete input batch for the example network: 2 batch elements of
2 inputs. -/
def xC : Tensor2 := ⟨2, 2, fun i j => ((i + 2 * j : ℕ) : ℚ) - 1⟩

/-- A concrete state snapshot for the example network: 4 state particles by
2 batch elements. -/
def stateC : Tensor2 := ⟨4, 2, fun i j => ((i : ℚ) - (j : ℚ)) / 2⟩

/-
List bookkeeping lemmas used to relate the source's list combinators
(zipWith, scanl, tail, dropLast, flatten) to explicit indexed sums.
-/

theorem getD_tail_eq {α : Type} (l : List α) (k : ℕ) (d : α) :
    l.tail.getD k d = l.getD (k + 1) d := by
  cases l <;> simp [List.getD]

theorem headD_eq_getD {α : Type} (l : List α) (d : α) : l.headD d = l.getD 0 d := by
  cases l <;> simp

theorem getD_take_eq {α : Type} (l : List α) (n k : ℕ) (d : α) (h : k < n) :
    (l.take n).getD k d = l.getD k d := by
  induction l generalizing n k with
  | nil => simp
  | cons a as ih =>
    cases n with
    | zero => omega
    | succ n' =>
      cases k with
      | zero => simp
      | succ k' => simpa using ih n' k' (by omega)

theorem getD_dropLast_eq {α : Type} (l : List α) (k : ℕ) (d : α)
    (h : k + 1 < l.length) : l.dropLast.getD k d = l.getD k d := by
  rw [List.dropLast_eq_take]
  exact getD_take_eq l (l.length - 1) k d (by omega)

theorem getD_map_eq {α β : Type} (f : α → β) (l : List α) (k : ℕ) (d : β)
    (d0 : α) (h : k < l.length) : (l.map f).getD k d = f (l.getD k d0) := by
  induction l generalizing k with
  | nil => simp at h
  | cons a as ih =>
    cases k with
    | zero => simp
    | succ k' => simpa using ih k' (by simpa using h)

theorem getD_zipWith_eq {α β γ : Type} (f : α → β → γ) (xs : List α)
    (ys : List β) (k : ℕ) (dx : α) (dy : β) (dz : γ)
    (hx : k < xs.length) (hy : k < ys.length) :
    (List.zipWith f xs ys).getD k dz = f (xs.getD k dx) (ys.getD k dy) := by
  induction xs generalizing ys k with
  | nil => simp at hx
  | cons a as ih =>
    cases ys with
    | nil => simp at hy
    | cons b bs =>
      cases k with
      | zero => simp
      | succ k' =>
        simpa using ih bs k' (by simpa using hx) (by simpa using hy)

theorem sum_eq_range_getD (l : List ℚ) :
    l.sum = ∑ k ∈ Finset.range l.length, l.getD k 0 := by
  induction l with
  | nil => simp
  | cons a as ih =>
    rw [List.sum_cons, ih, List.length_cons, Finset.sum_range_succ']
    simp only [List.getD_cons_succ, List.getD_cons_zero]
    ring

theorem zipWith_sum_eq {α β : Type} (f : α → β → ℚ) (xs : List α) (ys : List β)
    (dx : α) (dy : β) :
    (List.zipWith f xs ys).sum =
      ∑ k ∈ Finset.range (min xs.length ys.length),
        f (xs.getD k dx) (ys.getD k dy) := by
  rw [sum_eq_range_getD, List.length_zipWith]
  refine Finset.sum_congr rfl (fun k hk => ?_)
  rw [Finset.mem_range, lt_min_iff] at hk
  exact getD_zipWith_eq f xs ys k dx dy 0 hk.1 hk.2

theorem scanl_add_getD (l : List ℕ) (a k : ℕ) (h : k ≤ l.length) :
    (List.scanl (· + ·) a l).getD k 0 = a + (l.take k).sum := by
  induction l generalizing a k with
  | nil =>
    have hk : k = 0 := Nat.le_zero.mp h
    subst hk
    simp [List.scanl]
  | cons x xs ih =>
    cases k with
    | zero => simp [List.scanl]
    | succ k' =>
      rw [List.scanl_cons]
      have := ih (a + x) k' (by simpa using h)
      simpa [Nat.add_assoc] using this

theorem scanl_add_getLastD (l : List ℕ) (a d : ℕ) :
    (List.scanl (· + ·) a l).getLastD d = a + l.sum := by
  induction l generalizing a d with
  | nil => simp [List.scanl]
  | cons x xs ih =>
    rw [List.scanl_cons, List.singleton_append, List.getLastD_cons, ih]
    simp [Nat.add_assoc]

theorem take_succ_sum (l : List ℕ) (k : ℕ) (h : k < l.length) :
    (l.take (k + 1)).sum = (l.take k).sum + l.getD k 0 := by
  induction l generalizing k with
  | nil => simp at h
  | cons x xs ih =>
    cases k with
    | zero => simp
    | succ k' =>
      have := ih k' (by simpa using h)
      simp [List.take_succ_cons, this, Nat.add_assoc]

theorem map_range_getD {α : Type} (l : List α) (d : α) :
    (List.range l.length).map (fun k => l.getD k d) = l := by
  induction l with
  | nil => simp
  | cons a as ih =>
    have h2 : ((fun k => (a :: as).getD k d) ∘ Nat.succ) = fun k => as.getD k d := by
      funext k
      simp
    rw [List.length_cons, List.range_succ_eq_map, List.map_cons, List.map_map, h2, ih]
    simp

theorem ext_getD (l1 l2 : List ℕ) (hlen : l1.length = l2.length)
    (h : ∀ k, k < l1.length → l1.getD k 0 = l2.getD k 0) : l1 = l2 := by
  induction l1 generalizing l2 with
  | nil => cases l2 <;> simp_all
  | cons a as ih =>
    cases l2 with
    | nil => simp at hlen
    | cons b bs =>
      have hb := h 0 (by simp)
      simp only [List.getD_cons_zero] at hb
      subst hb
      have : as = bs := by
        refine ih bs (by simpa using hlen) (fun k hk => ?_)
        simpa using h (k + 1) (by simpa using hk)
      rw [this]

theorem getD_append_left {α : Type} (l1 l2 : List α) (k : ℕ) (d : α)
    (h : k < l1.length) : (l1 ++ l2).getD k d = l1.getD k d := by
  induction l1 generalizing k with
  | nil => simp at h
  | cons a as ih =>
    cases k with
    | zero => simp
    | succ k' => simpa using ih k' (by simpa using h)

theorem getD_append_right_off {α : Type} (l1 l2 : List α) (k : ℕ) (d : α) :
    (l1 ++ l2).getD (l1.length + k) d = l2.getD k d := by
  induction l1 with
  | nil => simp
  | cons a as ih => simpa [Nat.succ_add] using ih

theorem getD_range_eq (n k : ℕ) (h : k < n) : (List.range n).getD k 0 = k := by
  rw [List.getD_eq_getElem _ _ (by simpa using h)]
  exact List.getElem_range k (by simpa using h)

/-
Facts derived from well-formedness of a network.
-/

theorem wf_psums_length (net : EquilibriumNet) (hW : WF net) :
    net.partial_sums.length = net.shape.length := by
  obtain ⟨hL, hps, -, -, -, -, -⟩ := hW
  rw [hps, List.length_scanl, List.length_tail]
  omega

theorem wf_weights_length (net : EquilibriumNet) (hW : WF net) :
    net.weights.length = net.shape.length - 1 := by
  obtain ⟨-, -, hwr, -, -, -, -⟩ := hW
  have h2 := congrArg List.length hwr
  simpa [List.length_tail] using h2

theorem wf_weights_rows (net : EquilibriumNet) (hW : WF net) (k : ℕ)
    (h : k < net.shape.length - 1) :
    (net.weights.getD k zeroT2).rows = sh net (k + 1) := by
  have hlen := wf_weights_length net hW
  obtain ⟨-, -, hwr, -, -, -, -⟩ := hW
  have h2 := congrArg (fun l => l.getD k 0) hwr
  simp only at h2
  rw [getD_map_eq Tensor2.rows net.weights k 0 zeroT2 (by omega),
    getD_tail_eq] at h2
  simpa [sh] using h2

theorem wf_weights_cols (net : EquilibriumNet) (hW : WF net) (k : ℕ)
    (h : k < net.shape.length - 1) :
    (net.weights.getD k zeroT2).cols = sh net k := by
  have hlen := wf_weights_length net hW
  obtain ⟨hL, -, -, hwc, -, -, -⟩ := hW
  have h2 := congrArg (fun l => l.getD k 0) hwc
  simp only at h2
  rw [getD_map_eq Tensor2.cols net.weights k 0 zeroT2 (by omega),
    getD_dropLast_eq _ _ _ (by omega)] at h2
  simpa [sh] using h2

theorem wf_ps_eq (net : EquilibriumNet) (hW : WF net) (k : ℕ)
    (h : k ≤ net.shape.length - 1) :
    ps net k = (net.shape.tail.take k).sum := by
  obtain ⟨hL, hps, -, -, -, -, -⟩ := hW
  unfold ps
  rw [hps, scanl_add_getD _ 0 k (by rw [List.length_tail]; omega)]
  simp

theorem wf_nTotal_eq (net : EquilibriumNet) (hW : WF net) :
    nTotal net = net.shape.tail.sum := by
  obtain ⟨-, hps, -, -, -, -, -⟩ := hW
  unfold nTotal
  rw [hps, scanl_add_getLastD]
  simp

theorem wf_ps_succ (net : EquilibriumNet) (hW : WF net) (k : ℕ)
    (h : k < net.shape.length - 1) :
    ps net (k + 1) = ps net k + sh net (k + 1) := by
  have hL := hW.1
  rw [wf_ps_eq net hW (k + 1) (by omega), wf_ps_eq net hW k (by omega),
    take_succ_sum _ k (by rw [List.length_tail]; omega), getD_tail_eq]
  simp [sh]

theorem wf_ps_sub (net : EquilibriumNet) (hW : WF net) (k : ℕ)
    (h : k < net.shape.length - 1) :
    ps net (k + 1) - ps net k = sh net (k + 1) := by
  rw [wf_ps_succ net hW k h]
  omega

theorem wf_layers_length (net : EquilibriumNet) (hW : WF net) :
    net.layer_state_particles.length = net.shape.length - 1 := by
  have hpl := wf_psums_length net hW
  unfold EquilibriumNet.layer_state_particles
  rw [List.length_zipWith, List.length_tail, List.length_dropLast, hpl]
  omega

theorem wf_layers_getD (net : EquilibriumNet) (hW : WF net) (k : ℕ)
    (h : k < net.shape.length - 1) :
    net.layer_state_particles.getD k zeroT2 =
      net.state_particles.sliceRows (ps net k) (ps net (k + 1)) := by
  have hpl := wf_psums_length net hW
  have hL := hW.1
  unfold EquilibriumNet.layer_state_particles
  rw [getD_zipWith_eq _ _ _ k 0 0 zeroT2
    (by rw [List.length_dropLast]; omega) (by rw [List.length_tail]; omega)]
  rw [getD_dropLast_eq _ _ _ (by omega), getD_tail_eq]
  rfl

/-
The input_weights cache: length and per-neuron indexing.
-/

theorem inputWeights_length (ws : List Tensor2) :
    (inputWeights ws).length = (ws.map Tensor2.rows).sum := by
  unfold inputWeights
  rw [List.length_flatten, List.map_map]
  congr 1
  refine List.map_congr_left (fun w _ => ?_)
  simp [Function.comp]

theorem inputWeights_getD (ws : List Tensor2) (li r : ℕ) (hl : li < ws.length)
    (hr : r < (ws.getD li zeroT2).rows) :
    (inputWeights ws).getD (((ws.take li).map Tensor2.rows).sum + r) (fun _ => 0) =
      fun q => (ws.getD li zeroT2).entry r q := by
  induction ws generalizing li with
  | nil => simp at hl
  | cons w ws ih =>
    rw [show inputWeights (w :: ws) =
        ((List.range w.rows).map (fun p => fun i => w.entry p i)) ++ inputWeights ws
      from by simp [inputWeights]]
    cases li with
    | zero =>
      simp only [List.getD_cons_zero] at hr ⊢
      rw [List.take_zero, List.map_nil, List.sum_nil, Nat.zero_add]
      rw [getD_append_left _ _ r _ (by simpa using hr)]
      rw [getD_map_eq _ _ r _ 0 (by simpa using hr)]
      rw [getD_range_eq _ _ hr]
    | succ li' =>
      simp only [List.getD_cons_succ] at hr ⊢
      rw [List.take_succ_cons, List.map_cons, List.sum_cons, Nat.add_assoc]
      have hlen :
          ((List.range w.rows).map (fun p => fun i => w.entry p i)).length = w.rows := by
        simp
      rw [show w.rows + ((List.map Tensor2.rows (List.take li' ws)).sum + r) =
          ((List.range w.rows).map (fun p => fun i => w.entry p i)).length +
            ((List.map Tensor2.rows (List.take li' ws)).sum + r) from by rw [hlen]]
      rw [getD_append_right_off]
      exact ih li' (by simpa using hl) hr

/-
set_batch_size: a complete case characterization (which fields are written,
and when the asserts fire).
-/

theorem sbs_cases (net : EquilibriumNet) (m : ℕ) :
    (net.set_batch_size m .noState =
      ({ net with
          minibatch_size := m
          state_particles := ⟨net.partial_sums.getLastD 0, m, fun _ _ => 0⟩ }, none)) ∧
    (∀ v : Tensor1, net.set_batch_size m (.oneD v) =
      ({ net with
          minibatch_size := m
          state_particles := ⟨v.len, m, fun i _ => v.entry i⟩ },
        if v.len = net.partial_sums.getLastD 0 then none else some .ShapeMismatch)) ∧
    (∀ s : Tensor2, net.set_batch_size m (.twoD s) =
      ({ net with
          minibatch_size := m
          state_particles := s },
        if s.rows = net.partial_sums.getLastD 0 ∧ s.cols = m then none
        else some .ShapeMismatch)) := by
  refine ⟨rfl, fun v => ?_, fun s => ?_⟩
  · simp only [EquilibriumNet.set_batch_size]
    split
    · rfl
    · rfl
  · simp only [EquilibriumNet.set_batch_size]
    split
    · rfl
    · rfl

theorem sbs_fields (net : EquilibriumNet) (m : ℕ) (i : InitState) :
    (net.set_batch_size m i).1.shape = net.shape ∧
    (net.set_batch_size m i).1.partial_sums = net.partial_sums ∧
    (net.set_batch_size m i).1.minibatch_size = m ∧
    (net.set_batch_size m i).1.weights = net.weights ∧
    (net.set_batch_size m i).1.input_weights = net.input_weights ∧
    (net.set_batch_size m i).1.biases = net.biases := by
  obtain ⟨h0, h1, h2⟩ := sbs_cases net m
  cases i with
  | noState =>
    rw [h0]
    simp
  | oneD v =>
    rw [h1 v]
    simp
  | twoD s =>
    rw [h2 s]
    simp

theorem sbs_ok_state (net : EquilibriumNet) (m : ℕ) (i : InitState)
    (h : (net.set_batch_size m i).2 = none) :
    (net.set_batch_size m i).1.state_particles.rows = net.partial_sums.getLastD 0 ∧
    (net.set_batch_size m i).1.state_particles.cols = m := by
  obtain ⟨h0, h1, h2⟩ := sbs_cases net m
  cases i with
  | noState =>
    rw [h0]
    simp
  | oneD v =>
    rw [h1 v] at h ⊢
    by_cases hc : v.len = net.partial_sums.getLastD 0
    · simp [hc]
    · rw [if_neg hc] at h
      simp at h
  | twoD s =>
    rw [h2 s] at h ⊢
    by_cases hc : (s.rows = net.partial_sums.getLastD 0 ∧ s.cols = m)
    · simp [hc.1, hc.2]
    · rw [if_neg hc] at h
      simp at h

/-
Constructor success lemmas.
-/

theorem checkWeights_ok (shape : List ℕ) (wsArg : Option (List Tensor2))
    (rw0 : ℕ → ℕ → ℕ → ℚ) (ws : List Tensor2)
    (h : checkWeights shape wsArg rw0 = .ok ws) :
    ws.map Tensor2.rows = shape.tail ∧ ws.map Tensor2.cols = shape.dropLast := by
  cases wsArg with
  | none =>
    simp only [checkWeights, Except.ok.injEq] at h
    subst h
    constructor
    · rw [List.map_map]
      rw [show shape.length - 1 = shape.tail.length from (List.length_tail shape).symm]
      calc (List.range shape.tail.length).map
            (Tensor2.rows ∘ fun k =>
              (⟨shape.getD (k + 1) 0, shape.getD k 0, rw0 k⟩ : Tensor2))
          = (List.range shape.tail.length).map (fun k => shape.tail.getD k 0) := by
            refine List.map_congr_left (fun k _ => ?_)
            simp [Function.comp, getD_tail_eq]
        _ = shape.tail := map_range_getD shape.tail 0
    · rw [List.map_map]
      rw [show shape.length - 1 = shape.dropLast.length from
        (List.length_dropLast shape).symm]
      calc (List.range shape.dropLast.length).map
            (Tensor2.cols ∘ fun k =>
              (⟨shape.getD (k + 1) 0, shape.getD k 0, rw0 k⟩ : Tensor2))
          = (List.range shape.dropLast.length).map (fun k => shape.dropLast.getD k 0) := by
            refine List.map_congr_left (fun k hk => ?_)
            rw [List.mem_range, List.length_dropLast] at hk
            simp only [Function.comp]
            rw [getD_dropLast_eq _ _ _ (by omega)]
        _ = shape.dropLast := map_range_getD shape.dropLast 0
  | some ws0 =>
    simp only [checkWeights] at h
    split at h
    · next hgw =>
        rw [Except.ok.injEq] at h
        subst h
        obtain ⟨hlen, hpt⟩ := hgw
        have hL1 : ws0.length = shape.length - 1 := hlen
        constructor
        · refine ext_getD _ _ (by simp [hL1, List.length_tail]) (fun k hk => ?_)
          rw [List.length_map] at hk
          rw [getD_map_eq Tensor2.rows ws0 k 0 zeroT2 hk, getD_tail_eq]
          exact (hpt k hk).1
        · refine ext_getD _ _ (by simp [hL1, List.length_dropLast]) (fun k hk => ?_)
          rw [List.length_map] at hk
          rw [getD_map_eq Tensor2.cols ws0 k 0 zeroT2 hk,
            getD_dropLast_eq _ _ _ (by omega)]
          exact (hpt k hk).2
    · simp at h

theorem checkBiases_ok (nTot : ℕ) (bsArg : Option Tensor1) (rb0 : ℕ → ℚ)
    (bs : Tensor1) (h : checkBiases nTot bsArg rb0 = .ok bs) : bs.len = nTot := by
  cases bsArg with
  | none =>
    simp only [checkBiases, Except.ok.injEq] at h
    subst h
    rfl
  | some b0 =>
    simp only [checkBiases] at h
    split at h
    · next hb =>
        rw [Except.ok.injEq] at h
        subst h
        assumption
    · simp at h

theorem initNet_ok_core (inp : ℕ) (ls : List ℕ) (o m : ℕ)
    (wsArg : Option (List Tensor2)) (bsArg : Option Tensor1) (ist : InitState)
    (rw0 : ℕ → ℕ → ℕ → ℚ) (rb0 : ℕ → ℚ) (net : EquilibriumNet)
    (h : initNet inp ls o m wsArg bsArg ist rw0 rb0 = .ok net) :
    net.shape = inp :: (ls ++ [o]) ∧
    net.partial_sums = List.scanl (· + ·) 0 (ls ++ [o]) ∧
    net.minibatch_size = m ∧
    net.input_weights = inputWeights net.weights ∧
    WF net := by
  simp only [initNet, List.tail_cons] at h
  split at h
  · simp at h
  · next hsb =>
    split at h
    · simp at h
    · next ws hws =>
      split at h
      · simp at h
      · next bs hbs =>
        rw [Except.ok.injEq] at h
        subst h
        obtain ⟨hf1, hf2, hf3, -, -, -⟩ :=
          sbs_fields ⟨inp :: (ls ++ [o]), List.scanl (· + ·) 0 (ls ++ [o]),
            m, zeroT2, [], [], zeroT1⟩ m ist
        obtain ⟨hs1, hs2⟩ :=
          sbs_ok_state ⟨inp :: (ls ++ [o]), List.scanl (· + ·) 0 (ls ++ [o]),
            m, zeroT2, [], [], zeroT1⟩ m ist hsb
        obtain ⟨hwr, hwc⟩ := checkWeights_ok _ _ _ _ hws
        have hbl := checkBiases_ok _ _ _ _ hbs
        refine ⟨by simpa using hf1, by simpa using hf2, by simpa using hf3,
          rfl, ?_⟩
        refine ⟨?_, ?_, ?_, ?_, ?_, ?_, ?_⟩
        · simp only [hf1, List.length_cons, List.length_append, List.length_nil]
          omega
        · simp only [hf2, hf1, List.tail_cons]
        · simp only [hwr, hf1, List.tail_cons]
        · simp only [hwc, hf1]
        · simp only [hs1, hf2]
        · simp only [hs2, hf3]
        · simp only [hbl, hf2]

/-
Energy: the source computation (matrix products, diag, views) equals the
spec-side formula (explicit sums over layers).
-/

theorem energy_input_sums_eq (net : EquilibriumNet) (x : Tensor2) (b : ℕ)
    (hW : WF net) (hx2 : x.cols = net.shape.headD 0) :
    (Tensor2.mm x (Tensor2.mm (net.weights.headD zeroT2).t
        (rhoM (net.layer_state_particles.headD zeroT2)))).diag b =
      ∑ i ∈ Finset.range (sh net 0), x.entry b i *
        (∑ j ∈ Finset.range (sh net 1),
          (net.weights.getD 0 zeroT2).entry j i * actState net 0 j b) := by
  have hL := hW.1
  have hw0 : net.weights.headD zeroT2 = net.weights.getD 0 zeroT2 :=
    headD_eq_getD _ _
  have hl0 : net.layer_state_particles.headD zeroT2 =
      net.state_particles.sliceRows (ps net 0) (ps net 1) := by
    rw [headD_eq_getD]
    exact wf_layers_getD net hW 0 (by omega)
  have hr0 : (net.weights.getD 0 zeroT2).rows = sh net 1 :=
    wf_weights_rows net hW 0 (by omega)
  have hxc : x.cols = sh net 0 := by
    rw [hx2, headD_eq_getD]
    rfl
  rw [hw0, hl0]
  simp only [Tensor2.mm, Tensor2.diag, Tensor2.t, rhoM, Tensor2.sliceRows,
    actState]
  rw [hxc, hr0]

theorem energy_bias_sum_eq (net : EquilibriumNet) (b : ℕ) (hW : WF net) :
    (vecmm net.biases (rhoM net.state_particles)).entry b = biasTermSpec net b := by
  have hbl : net.biases.len = nTotal net := hW.2.2.2.2.2.2
  simp only [vecmm, rhoM, biasTermSpec]
  rw [hbl]

theorem energy_tensor_product_eq (net : EquilibriumNet) (b : ℕ) (hW : WF net) :
    (List.zipWith (fun pr s => (Tensor2.mm pr.t (rhoM s)).diag b)
      (List.zipWith (fun W s => Tensor2.mm W.t (rhoM s))
        net.weights.tail net.layer_state_particles.tail)
      net.layer_state_particles.dropLast).sum = interLayerSpec net b := by
  have hL := hW.1
  have hwlen := wf_weights_length net hW
  have hlayers := wf_layers_length net hW
  have hnw_len : (List.zipWith (fun W s => Tensor2.mm W.t (rhoM s))
      net.weights.tail net.layer_state_particles.tail).length =
      net.shape.length - 2 := by
    rw [List.length_zipWith, List.length_tail, List.length_tail, hwlen, hlayers]
    omega
  have hdl_len : net.layer_state_particles.dropLast.length =
      net.shape.length - 2 := by
    rw [List.length_dropLast, hlayers]
    omega
  rw [zipWith_sum_eq _ _ _ zeroT2 zeroT2, hnw_len, hdl_len, Nat.min_self]
  unfold interLayerSpec
  refine Finset.sum_congr rfl (fun k hk => ?_)
  rw [Finset.mem_range] at hk
  have h1 : (List.zipWith (fun W s => Tensor2.mm W.t (rhoM s))
      net.weights.tail net.layer_state_particles.tail).getD k zeroT2 =
      Tensor2.mm (net.weights.getD (k + 1) zeroT2).t
        (rhoM (net.state_particles.sliceRows (ps net (k + 1)) (ps net (k + 2)))) := by
    rw [getD_zipWith_eq _ _ _ k zeroT2 zeroT2 zeroT2
      (by rw [List.length_tail, hwlen]; omega)
      (by rw [List.length_tail, hlayers]; omega)]
    rw [getD_tail_eq, getD_tail_eq]
    rw [wf_layers_getD net hW (k + 1) (by omega)]
  have h2 : net.layer_state_particles.dropLast.getD k zeroT2 =
      net.state_particles.sliceRows (ps net k) (ps net (k + 1)) := by
    rw [getD_dropLast_eq _ _ _ (by rw [hlayers]; omega)]
    exact wf_layers_getD net hW k (by omega)
  rw [h1, h2]
  have hc1 : (net.weights.getD (k + 1) zeroT2).cols = sh net (k + 1) :=
    wf_weights_cols net hW (k + 1) (by omega)
  have hr1 : (net.weights.getD (k + 1) zeroT2).rows = sh net (k + 2) :=
    wf_weights_rows net hW (k + 1) (by omega)
  simp only [Tensor2.mm, Tensor2.diag, Tensor2.t, rhoM, Tensor2.sliceRows,
    actState]
  rw [hc1, hr1]

theorem energyAt_eq (net : EquilibriumNet) (x : Tensor2) (b : ℕ)
    (hW : WF net) (hx2 : x.cols = net.shape.headD 0) :
    net.energyAt x b = energySpecAt net x b := by
  have hsq : net.state_particles.rows = nTotal net := hW.2.2.2.2.1
  simp only [EquilibriumNet.energyAt, energySpecAt]
  rw [energy_input_sums_eq net x b hW hx2, energy_bias_sum_eq net b hW,
    energy_tensor_product_eq net b hW, hsq]
  simp only [inputCouplingSpec, squaredNormSpec]

/-- C8: for every input tensor v, every element of rho(v) lies in [0, 1] and
equals the input exactly where 0 <= v <= 1; rhoprime(v) equals 1 exactly
strictly inside (0, 1) and 0 everywhere else, including at the boundary
values 0 and 1. -/
theorem rho_rhoprime_props (v : Tensor2) (i j : ℕ) :
    (0 ≤ (rhoM v).entry i j ∧ (rhoM v).entry i j ≤ 1) ∧
    ((rhoM v).entry i j = v.entry i j ↔ (0 ≤ v.entry i j ∧ v.entry i j ≤ 1)) ∧
    ((rhoprimeM v).entry i j = 1 ↔ (0 < v.entry i j ∧ v.entry i j < 1)) ∧
    ((rhoprimeM v).entry i j = 0 ↔ ¬ (0 < v.entry i j ∧ v.entry i j < 1)) := by
  simp only [rhoM, rhoprimeM, rho, rhoprime]
  refine ⟨⟨?_, ?_⟩, ?_, ?_, ?_⟩
  · exact le_min (le_max_right _ _) zero_le_one
  · exact min_le_right _ _
  · constructor
    · intro h
      constructor
      · rw [← h]
        exact le_min (le_max_right _ _) zero_le_one
      · rw [← h]
        exact min_le_right _ _
    · rintro ⟨h0, h1⟩
      rw [max_eq_left h0, min_eq_left h1]
  · split_ifs with hc
    · simp [hc]
    · simp [hc]
  · split_ifs with hc
    · simp [hc]
    · simp [hc]

/-- C4: set_batch_size with no initial state zero-fills a buffer of shape
(partial_sums[-1], minibatch_size); a 1-D initial state is tiled across the
minibatch dimension and fails with ShapeMismatch exactly when its length
differs from partial_sums[-1]; a 2-D initial state is taken as the state
buffer and fails with ShapeMismatch exactly when its shape differs from
(partial_sums[-1], minibatch_size). -/
theorem set_batch_size_state_init (net : EquilibriumNet) (m : ℕ) :
    ((net.set_batch_size m .noState).2 = none ∧
     (net.set_batch_size m .noState).1.state_particles.rows = nTotal net ∧
     (net.set_batch_size m .noState).1.state_particles.cols = m ∧
     ∀ i j, (net.set_batch_size m .noState).1.state_particles.entry i j = 0) ∧
    (∀ v : Tensor1,
     (net.set_batch_size m (.oneD v)).2 =
       (if v.len = nTotal net then none else some .ShapeMismatch) ∧
     (net.set_batch_size m (.oneD v)).1.state_particles.rows = v.len ∧
     (net.set_batch_size m (.oneD v)).1.state_particles.cols = m ∧
     ∀ i j, (net.set_batch_size m (.oneD v)).1.state_particles.entry i j =
       v.entry i) ∧
    (∀ s : Tensor2,
     (net.set_batch_size m (.twoD s)).2 =
       (if s.rows = nTotal net ∧ s.cols = m then none else some .ShapeMismatch) ∧
     (net.set_batch_size m (.twoD s)).1.state_particles = s) := by
  obtain ⟨h0, h1, h2⟩ := sbs_cases net m
  refine ⟨?_, fun v => ?_, fun s => ?_⟩
  · rw [h0]
    refine ⟨rfl, rfl, rfl, fun i j => rfl⟩
  · rw [h1 v]
    refine ⟨rfl, rfl, rfl, fun i j => rfl⟩
  · rw [h2 s]
    exact ⟨rfl, rfl⟩

/-- C10 (implicit): set_batch_size is not atomic on failure: it assigns the
new minibatch_size (and, in the 1-D case, the tiled state buffer) before its
shape validation, so on a shape error the network keeps the new
minibatch_size (and tiled state) instead of being rolled back. -/
theorem set_batch_size_not_atomic (net : EquilibriumNet) (m : ℕ) :
    (∀ i : InitState, (net.set_batch_size m i).2.isSome = true →
      (net.set_batch_size m i).1.minibatch_size = m) ∧
    (∀ v : Tensor1, (net.set_batch_size m (.oneD v)).2.isSome = true →
      (net.set_batch_size m (.oneD v)).1.state_particles.rows = v.len ∧
      (net.set_batch_size m (.oneD v)).1.state_particles.cols = m ∧
      ∀ i j, (net.set_batch_size m (.oneD v)).1.state_particles.entry i j =
        v.entry i) := by
  obtain ⟨h0, h1, h2⟩ := sbs_cases net m
  constructor
  · intro i _
    cases i with
    | noState => rw [h0]
    | oneD v => rw [h1 v]
    | twoD s => rw [h2 s]
  · intro v _
    rw [h1 v]
    exact ⟨rfl, rfl, fun i j => rfl⟩

/-- Witness for C10: on the concrete example network (minibatch size 2,
partial_sums[-1] = 4), calling set_batch_size with minibatch size 5 and a
1-D initial state of length 1 fails, yet the returned object holds the new
minibatch size 5 and the tiled bad state. -/
theorem set_batch_size_not_atomic_witness :
    (netC.set_batch_size 5 (.oneD ⟨1, fun _ => 2⟩)).2.isSome = true ∧
    netC.minibatch_size = 2 ∧
    (netC.set_batch_size 5 (.oneD ⟨1, fun _ => 2⟩)).1.minibatch_size = 5 := by
  refine ⟨by decide, by decide, ?_⟩
  exact (set_batch_size_not_atomic netC 5).1 (.oneD ⟨1, fun _ => 2⟩) (by decide)

/-- Counterexample for C7: construction with an all-zero layer-size sequence
(a malformed, non-positive-width shape) succeeds; it is not rejected, and the
code has no ConfigurationError path at all. -/
theorem init_accepts_zero_width :
    (initNet 0 [0] 0 1 none none .noState rwC rbC).isOk = true := rfl

/-- C7 as amended: construction never validates the layer sizes: with no
externally supplied weights, biases or initial state it always succeeds,
whatever the widths (in particular for zero widths), and no
ConfigurationError exists. -/
theorem init_never_rejects_widths (inp : ℕ) (ls : List ℕ) (o m : ℕ)
    (rw0 : ℕ → ℕ → ℕ → ℚ) (rb0 : ℕ → ℚ) :
    (initNet inp ls o m none none .noState rw0 rb0).isOk = true := rfl

theorem netC_spec : initNet 2 [3] 1 2 none none .noState rwC rbC = .ok netC := rfl

/-- C2: for every constructed network (well-formed per WF, which initNet
guarantees) and input batch of shape (minibatch_size, input_size), energy
returns exactly one scalar per batch element, each equal to the spec formula
input-coupling + squared-norm - bias - inter-layer coupling. -/
theorem energy_matches_spec (net : EquilibriumNet) (x : Tensor2) (hW : WF net)
    (hx1 : x.rows = net.minibatch_size) (hx2 : x.cols = net.shape.headD 0) :
    net.energy x =
      .ok ((List.range net.minibatch_size).map (energySpecAt net x)) ∧
    ((List.range net.minibatch_size).map (energySpecAt net x)).length =
      net.minibatch_size := by
  constructor
  · unfold EquilibriumNet.energy
    rw [if_pos ⟨hx1, hx2⟩]
    have hfun : net.energyAt x = energySpecAt net x :=
      funext (fun b => energyAt_eq net x b hW hx2)
    rw [hfun]
  · simp

/-- Witness for C2 at the concrete example network and input batch. -/
theorem energy_matches_spec_witness :
    WF netC ∧ xC.rows = netC.minibatch_size ∧ xC.cols = netC.shape.headD 0 ∧
    netC.energy xC =
      .ok ((List.range netC.minibatch_size).map (energySpecAt netC xC)) :=
  ⟨by decide, by decide, by decide,
    (energy_matches_spec netC xC (by decide) (by decide) (by decide)).1⟩

/-- C1 (supporting theorem for the code bug): energy_grad_state never
returns a gradient.  Under the input-shape contract, with at least one
hidden layer (otherwise torch.cat raises on an empty list) and
input_size ≤ partial_sums[-1] (so the internal padding does not crop), it
computes its intermediates, prints them, and returns None. -/
theorem energy_grad_state_returns_none (net : EquilibriumNet) (x : Tensor2)
    (hW : WF net) (hx1 : x.rows = net.minibatch_size)
    (hx2 : x.cols = net.shape.headD 0) (hL : 3 ≤ net.shape.length)
    (_hpad : sh net 0 ≤ nTotal net) :
    net.energy_grad_state x = .ok none := by
  have hwlen := wf_weights_length net hW
  have hlayers := wf_layers_length net hW
  have hlen : (List.zipWith Tensor2.mm net.weights.tail
      net.layer_state_particles.dropLast).length = net.shape.length - 2 := by
    rw [List.length_zipWith, List.length_tail, hwlen, List.length_dropLast,
      hlayers]
    omega
  obtain ⟨t, ts, hts⟩ : ∃ t ts, List.zipWith Tensor2.mm net.weights.tail
      net.layer_state_particles.dropLast = t :: ts := by
    cases hcc : List.zipWith Tensor2.mm net.weights.tail
        net.layer_state_particles.dropLast with
    | nil =>
      rw [hcc] at hlen
      simp at hlen
      omega
    | cons t ts => exact ⟨t, ts, rfl⟩
  simp only [EquilibriumNet.energy_grad_state]
  rw [if_pos ⟨hx1, hx2⟩, hts]
  rfl

/-- Witness for C1's supporting theorem at the concrete example network. -/
theorem energy_grad_state_returns_none_witness :
    WF netC ∧ 3 ≤ netC.shape.length ∧ sh netC 0 ≤ nTotal netC ∧
    netC.energy_grad_state xC = .ok none :=
  ⟨by decide, by decide, by decide,
    energy_grad_state_returns_none netC xC (by decide) (by decide) (by decide)
      (by decide) (by decide)⟩

/-- C3: for every constructed network, state tensor of the state-buffer
shape, and input batch, energy_grad_weight returns the bias gradient (the
minibatch mean of the activated state, one component per bias entry) and one
weight gradient per inter-layer connection, equal to the activated
downstream state times the transposed activated upstream state (x itself for
the virtual input layer) divided by the minibatch size. -/
theorem energy_grad_weight_matches_spec (net : EquilibriumNet)
    (state x : Tensor2) (hW : WF net) (hs1 : state.rows = nTotal net)
    (hs2 : state.cols = net.minibatch_size) (hx2 : x.cols = sh net 0) :
    ∃ wg bg, net.energy_grad_weight state x = .ok (wg, bg) ∧
      bg.len = nTotal net ∧
      (∀ i, bg.entry i = biasGradSpec net state i) ∧
      wg.length = net.shape.length - 1 ∧
      (∀ k, k < net.shape.length - 1 →
        (wg.getD k zeroT2).rows = (weightGradSpec net state x k).rows ∧
        (wg.getD k zeroT2).cols = (weightGradSpec net state x k).cols ∧
        ∀ i j, (wg.getD k zeroT2).entry i j =
          (weightGradSpec net state x k).entry i j) := by
  have hE : net.state_particles.rows = nTotal net := hW.2.2.2.2.1
  have hF : net.state_particles.cols = net.minibatch_size := hW.2.2.2.2.2.1
  have hpl := wf_psums_length net hW
  have hL := hW.1
  have hguard : state.rows = net.state_particles.rows ∧
      state.cols = net.state_particles.cols := by
    constructor
    · rw [hs1, hE]
    · rw [hs2, hF]
  simp only [EquilibriumNet.energy_grad_weight]
  rw [if_pos hguard]
  refine ⟨_, _, rfl, ?_, ?_, ?_, ?_⟩
  · simp only [Tensor2.meanDim1, rhoM]
    exact hs1
  · intro i
    simp only [Tensor2.meanDim1, rhoM, biasGradSpec]
    rw [hs2]
  · rw [List.length_zipWith, List.length_dropLast, List.length_tail,
      List.length_cons, List.length_zipWith, List.length_dropLast,
      List.length_tail, hpl]
    omega
  · intro k hk
    have hstep : ∀ j, j < net.shape.length - 1 →
        (x.t :: List.zipWith (fun b e => (rhoM state).sliceRows b e)
          net.partial_sums.dropLast net.partial_sums.tail).getD (j + 1) zeroT2 =
        (rhoM state).sliceRows (ps net j) (ps net (j + 1)) := by
      intro j hj
      rw [List.getD_cons_succ]
      rw [getD_zipWith_eq _ _ _ j 0 0 zeroT2
        (by rw [List.length_dropLast, hpl]; omega)
        (by rw [List.length_tail, hpl]; omega)]
      rw [getD_dropLast_eq _ _ _ (by rw [hpl]; omega), getD_tail_eq]
      rfl
    have hwgk : (List.zipWith
        (fun prev next => (Tensor2.mm next prev.t).divNat net.minibatch_size)
        (x.t :: List.zipWith (fun b e => (rhoM state).sliceRows b e)
          net.partial_sums.dropLast net.partial_sums.tail).dropLast
        (x.t :: List.zipWith (fun b e => (rhoM state).sliceRows b e)
          net.partial_sums.dropLast net.partial_sums.tail).tail).getD k zeroT2 =
        (Tensor2.mm
          ((x.t :: List.zipWith (fun b e => (rhoM state).sliceRows b e)
            net.partial_sums.dropLast net.partial_sums.tail).getD (k + 1) zeroT2)
          (((x.t :: List.zipWith (fun b e => (rhoM state).sliceRows b e)
            net.partial_sums.dropLast net.partial_sums.tail).getD k
              zeroT2).t)).divNat net.minibatch_size := by
      rw [getD_zipWith_eq _ _ _ k zeroT2 zeroT2 zeroT2
        (by
          rw [List.length_dropLast, List.length_cons, List.length_zipWith,
            List.length_dropLast, List.length_tail, hpl]
          omega)
        (by
          rw [List.length_tail, List.length_cons, List.length_zipWith,
            List.length_dropLast, List.length_tail, hpl]
          omega)]
      rw [getD_dropLast_eq _ _ _
        (by
          rw [List.length_cons, List.length_zipWith, List.length_dropLast,
            List.length_tail, hpl]
          omega), getD_tail_eq]
    rw [hwgk, hstep k hk]
    have hps_sub := wf_ps_sub net hW k hk
    cases k with
    | zero =>
      simp only [List.getD_cons_zero]
      refine ⟨?_, ?_, ?_⟩
      · simp only [Tensor2.divNat, Tensor2.mm, Tensor2.sliceRows, rhoM,
          weightGradSpec]
        exact hps_sub
      · simp only [Tensor2.divNat, Tensor2.mm, Tensor2.t, weightGradSpec]
        exact hx2
      · intro i j
        simp only [Tensor2.divNat, Tensor2.mm, Tensor2.t, Tensor2.sliceRows,
          rhoM, weightGradSpec, actUpstream]
        rw [hs2]
    | succ k2 =>
      rw [hstep k2 (by omega)]
      refine ⟨?_, ?_, ?_⟩
      · simp only [Tensor2.divNat, Tensor2.mm, Tensor2.sliceRows, rhoM,
          weightGradSpec]
        exact hps_sub
      · simp only [Tensor2.divNat, Tensor2.mm, Tensor2.t, Tensor2.sliceRows,
          rhoM, weightGradSpec]
        exact wf_ps_sub net hW k2 (by omega)
      · intro i j
        simp only [Tensor2.divNat, Tensor2.mm, Tensor2.t, Tensor2.sliceRows,
          rhoM, weightGradSpec, actUpstream]
        rw [hs2]

/-- Witness for C3 at the concrete example network, state snapshot, and
input batch. -/
theorem energy_grad_weight_matches_spec_witness :
    WF netC ∧ stateC.rows = nTotal netC ∧ stateC.cols = netC.minibatch_size ∧
    xC.cols = sh netC 0 ∧
    (∃ wg bg, netC.energy_grad_weight stateC xC = .ok (wg, bg) ∧
      bg.len = nTotal netC ∧
      (∀ i, bg.entry i = biasGradSpec netC stateC i) ∧
      wg.length = netC.shape.length - 1 ∧
      (∀ k, k < netC.shape.length - 1 →
        (wg.getD k zeroT2).rows = (weightGradSpec netC stateC xC k).rows ∧
        (wg.getD k zeroT2).cols = (weightGradSpec netC stateC xC k).cols ∧
        ∀ i j, (wg.getD k zeroT2).entry i j =
          (weightGradSpec netC stateC xC k).entry i j)) :=
  ⟨by decide, by decide, by decide, by decide,
    energy_grad_weight_matches_spec netC stateC xC (by decide) (by decide)
      (by decide) (by decide)⟩

/-- C6: every successful construction yields shape = [input_size] ++
hidden_sizes ++ [output_size]; partial_sums starts at 0 and is the prefix
sum over shape[1:]; partial_sums[k+1] - partial_sums[k] = shape[k+1];
partial_sums[-1] = sum(hidden_sizes) + output_size; and set_batch_size (the
only mutating operation) never changes shape or partial_sums. -/
theorem init_shape_psums_invariants (inp : ℕ) (ls : List ℕ) (o m : ℕ)
    (wsArg : Option (List Tensor2)) (bsArg : Option Tensor1) (ist : InitState)
    (rw0 : ℕ → ℕ → ℕ → ℚ) (rb0 : ℕ → ℚ) (net : EquilibriumNet)
    (h : initNet inp ls o m wsArg bsArg ist rw0 rb0 = .ok net) :
    net.shape = inp :: (ls ++ [o]) ∧
    net.partial_sums.getD 0 0 = 0 ∧
    (∀ k, k ≤ net.shape.length - 1 →
      net.partial_sums.getD k 0 = (net.shape.tail.take k).sum) ∧
    (∀ k, k + 1 < net.partial_sums.length →
      net.partial_sums.getD (k + 1) 0 - net.partial_sums.getD k 0 =
        net.shape.getD (k + 1) 0) ∧
    net.partial_sums.getLastD 0 = ls.sum + o ∧
    (∀ m2 i2, (net.set_batch_size m2 i2).1.shape = net.shape ∧
      (net.set_batch_size m2 i2).1.partial_sums = net.partial_sums) := by
  obtain ⟨c1, c2, c3, c4, hWF⟩ := initNet_ok_core _ _ _ _ _ _ _ _ _ _ h
  refine ⟨c1, ?_, ?_, ?_, ?_,
    fun m2 i2 => ⟨(sbs_fields net m2 i2).1, (sbs_fields net m2 i2).2.1⟩⟩
  · have h0 := wf_ps_eq net hWF 0 (Nat.zero_le _)
    simpa [ps] using h0
  · intro k hk
    have hke := wf_ps_eq net hWF k hk
    simpa [ps] using hke
  · intro k hk
    have hplen := wf_psums_length net hWF
    have hsub := wf_ps_sub net hWF k (by omega)
    simpa [ps, sh] using hsub
  · rw [c2, scanl_add_getLastD]
    simp

/-- Witness for C6 at the concrete example construction. -/
theorem init_shape_psums_invariants_witness :
    initNet 2 [3] 1 2 none none .noState rwC rbC = .ok netC ∧
    netC.shape = 2 :: ([3] ++ [1]) ∧
    netC.partial_sums.getLastD 0 = [3].sum + 1 :=
  ⟨netC_spec,
    (init_shape_psums_invariants 2 [3] 1 2 none none .noState rwC rbC netC
      netC_spec).1,
    (init_shape_psums_invariants 2 [3] 1 2 none none .noState rwC rbC netC
      netC_spec).2.2.2.2.1⟩

/-- C9: for every successful construction, the input_weights cache is the
concatenation of the weight-matrix rows in layer order: its length is
partial_sums[-1], and entry partial_sums[l] + r is row r of weight matrix l
(the incoming-weight row of that flattened non-input neuron). -/
theorem input_weights_layout (inp : ℕ) (ls : List ℕ) (o m : ℕ)
    (wsArg : Option (List Tensor2)) (bsArg : Option Tensor1) (ist : InitState)
    (rw0 : ℕ → ℕ → ℕ → ℚ) (rb0 : ℕ → ℚ) (net : EquilibriumNet)
    (h : initNet inp ls o m wsArg bsArg ist rw0 rb0 = .ok net) :
    net.input_weights.length = nTotal net ∧
    (∀ li r, li + 1 < net.shape.length → r < net.shape.getD (li + 1) 0 →
      ∀ q, net.input_weights.getD (ps net li + r) (fun _ => 0) q =
        (net.weights.getD li zeroT2).entry r q) := by
  obtain ⟨-, -, -, c4, hWF⟩ := initNet_ok_core _ _ _ _ _ _ _ _ _ _ h
  have hwr : net.weights.map Tensor2.rows = net.shape.tail := hWF.2.2.1
  have hwlen := wf_weights_length net hWF
  constructor
  · rw [c4, inputWeights_length, hwr, wf_nTotal_eq net hWF]
  · intro li r hli hr
    have hrowsli : (net.weights.getD li zeroT2).rows = sh net (li + 1) :=
      wf_weights_rows net hWF li (by omega)
    have hoffset : ((net.weights.take li).map Tensor2.rows).sum = ps net li := by
      rw [List.map_take, hwr]
      exact (wf_ps_eq net hWF li (by omega)).symm
    intro q
    have hiw := inputWeights_getD net.weights li r (by omega)
      (by rw [hrowsli]; exact hr)
    rw [c4, ← hoffset]
    exact congrFun hiw q

/-- Witness for C9 at the concrete example construction (shape [2, 3, 1]:
input_weights has length 3 + 1 = 4 = partial_sums[-1]). -/
theorem input_weights_layout_witness :
    initNet 2 [3] 1 2 none none .noState rwC rbC = .ok netC ∧
    netC.input_weights.length = nTotal netC :=
  ⟨netC_spec,
    (input_weights_layout 2 [3] 1 2 none none .noState rwC rbC netC
      netC_spec).1⟩

theorem initNet_noState_some_reduce (inp : ℕ) (ls : List ℕ) (o m : ℕ)
    (ws : List Tensor2) (bs : Tensor1) (rw0 : ℕ → ℕ → ℕ → ℚ) (rb0 : ℕ → ℚ) :
    initNet inp ls o m (some ws) (some bs) .noState rw0 rb0 =
      (match (if goodWeights (inp :: (ls ++ [o])) ws
          then (Except.ok ws : Except EqError (List Tensor2))
          else .error .ShapeMismatch) with
       | .error e => .error e
       | .ok ws2 =>
         match (if bs.len = (List.scanl (· + ·) 0 (ls ++ [o])).getLastD 0
             then (Except.ok bs : Except EqError Tensor1)
             else .error .ShapeMismatch) with
         | .error e => .error e
         | .ok bs2 =>
           .ok { shape := inp :: (ls ++ [o])
                 partial_sums := List.scanl (· + ·) 0 (ls ++ [o])
                 minibatch_size := m
                 state_particles :=
                   ⟨(List.scanl (· + ·) 0 (ls ++ [o])).getLastD 0, m,
                     fun _ _ => 0⟩
                 weights := ws2
                 input_weights := inputWeights ws2
                 biases := bs2 }) := rfl

/-- C5: construction with externally supplied weights and biases fails with
ShapeMismatch exactly when the weight count differs from len(shape) - 1, or
some weight matrix k does not have shape (shape[k+1], shape[k]), or the bias
length differs from partial_sums[-1] = sum(hidden_sizes) + output_size;
otherwise the supplied weights and biases are stored unchanged. -/
theorem init_weight_bias_validation (inp : ℕ) (ls : List ℕ) (o m : ℕ)
    (ws : List Tensor2) (bs : Tensor1) (rw0 : ℕ → ℕ → ℕ → ℚ) (rb0 : ℕ → ℚ) :
    (initNet inp ls o m (some ws) (some bs) .noState rw0 rb0 =
        .error .ShapeMismatch ↔
      ¬ (ws.length = ls.length + 1 ∧
         (∀ k, k < ws.length →
           (ws.getD k zeroT2).rows = (inp :: (ls ++ [o])).getD (k + 1) 0 ∧
           (ws.getD k zeroT2).cols = (inp :: (ls ++ [o])).getD k 0) ∧
         bs.len = ls.sum + o)) ∧
    (∀ net, initNet inp ls o m (some ws) (some bs) .noState rw0 rb0 = .ok net →
      net.weights = ws ∧ net.biases = bs) := by
  have hl2 : ((inp : ℕ) :: (ls ++ [o])).length - 1 = ls.length + 1 := by simp
  have hlast : (List.scanl (· + ·) 0 (ls ++ [o])).getLastD 0 = ls.sum + o := by
    rw [scanl_add_getLastD]
    simp
  have hgw_iff : goodWeights (inp :: (ls ++ [o])) ws ↔
      (ws.length = ls.length + 1 ∧
       ∀ k, k < ws.length →
         (ws.getD k zeroT2).rows = (inp :: (ls ++ [o])).getD (k + 1) 0 ∧
         (ws.getD k zeroT2).cols = (inp :: (ls ++ [o])).getD k 0) := by
    unfold goodWeights
    rw [hl2]
  by_cases hg : goodWeights (inp :: (ls ++ [o])) ws
  · by_cases hb : bs.len = ls.sum + o
    · have hres : initNet inp ls o m (some ws) (some bs) .noState rw0 rb0 =
          .ok { shape := inp :: (ls ++ [o])
                partial_sums := List.scanl (· + ·) 0 (ls ++ [o])
                minibatch_size := m
                state_particles :=
                  ⟨(List.scanl (· + ·) 0 (ls ++ [o])).getLastD 0, m,
                    fun _ _ => 0⟩
                weights := ws
                input_weights := inputWeights ws
                biases := bs } := by
        rw [initNet_noState_some_reduce]
        rw [if_pos hg, if_pos (show bs.len =
          (List.scanl (· + ·) 0 (ls ++ [o])).getLastD 0 by rw [hlast]; exact hb)]
      refine ⟨?_, ?_⟩
      · rw [hres]
        constructor
        · intro hcontra
          exact absurd hcontra (by simp)
        · intro hbad
          exact absurd ⟨(hgw_iff.mp hg).1, (hgw_iff.mp hg).2, hb⟩ hbad
      · intro net hnet
        rw [hres, Except.ok.injEq] at hnet
        subst hnet
        exact ⟨rfl, rfl⟩
    · have hres : initNet inp ls o m (some ws) (some bs) .noState rw0 rb0 =
          .error .ShapeMismatch := by
        rw [initNet_noState_some_reduce]
        rw [if_pos hg, if_neg (show ¬ bs.len =
          (List.scanl (· + ·) 0 (ls ++ [o])).getLastD 0 by rw [hlast]; exact hb)]
      refine ⟨?_, ?_⟩
      · rw [hres]
        exact ⟨fun _ hcond => hb hcond.2.2, fun _ => rfl⟩
      · intro net hnet
        rw [hres] at hnet
        exact absurd hnet (by simp)
  · have hres : initNet inp ls o m (some ws) (some bs) .noState rw0 rb0 =
        .error .ShapeMismatch := by
      rw [initNet_noState_some_reduce]
      rw [if_neg hg]
    refine ⟨?_, ?_⟩
    · rw [hres]
      exact ⟨fun _ hcond => hg (hgw_iff.mpr ⟨hcond.1, hcond.2.1⟩),
        fun _ => rfl⟩
    · intro net hnet
      rw [hres] at hnet
      exact absurd hnet (by simp)

/-- Witness for C5: supplying an empty weight list (count 0 instead of 2) to
the example construction fails with ShapeMismatch. -/
theorem init_weight_bias_validation_witness :
    initNet 2 [3] 1 2 (some []) (some ⟨4, fun _ => 0⟩) .noState rwC rbC =
      .error .ShapeMismatch :=
  (init_weight_bias_validation 2 [3] 1 2 [] ⟨4, fun _ => 0⟩ rwC rbC).1.mpr
    (by decide)
